import Mathlib

/-!
# Restaurant menu API (`src/server.js`)

A shallow embedding of the Express application in `src/server.js`: the in-memory
array `menuItems`, the validation middleware (`todoValidation` followed by
`handleValidationErrors`) and the five `/api/menu` handlers.  A handler is a pure
function from the array before the request to the response and the array after it.

Conventions of the embedding.

* A request body is the value `express.json()` has already parsed (`JVal`); an absent
  property reads as `undefined`.
* A JavaScript number that travels through a body is carried by its canonical decimal
  text (`String(x)`), the only thing the program ever asks of it.
* Record ids are mathematical integers; `NaN` from `parseInt` is `none`.
* `requestLogger` only writes to the console and is not part of the state.
* The validators come from the express-validator package (version 7, on top of
  validator.js); they are transcribed here as that package defines them.
-/

set_option autoImplicit false

namespace RestaurantAPI

/-! ## JavaScript values -/

/-- A parsed JSON value, with `undefined` for an absent property.  The properties of an
object are listed in own-property order. -/
inductive JVal where
  | undefined : JVal
  | null : JVal
  | bool (b : Bool) : JVal
  | num (text : String) : JVal
  | str (s : String) : JVal
  | arr (elems : List JVal) : JVal
  | obj (props : List (String × JVal)) : JVal

namespace JVal

/-- Test `value === undefined`. -/
def isUndefined : JVal → Bool
  | undefined => true
  | _ => false

/-- Test `typeof value === 'string'`. -/
def isStr : JVal → Bool
  | str _ => true
  | _ => false

/-- JavaScript truthiness of a parsed value. -/
def truthy : JVal → Bool
  | undefined => false
  | null => false
  | bool b => b
  | num text => text != "0"
  | str s => s != ""
  | arr _ => true
  | obj _ => true

/-- Property read `o[key]` on a list of own properties. -/
def lookup (key : String) : List (String × JVal) → JVal
  | [] => undefined
  | (k, v) :: rest => if k == key then v else lookup key rest

/-- Whether the object has an own property of that name. -/
def hasOwn (key : String) : List (String × JVal) → Bool
  | [] => false
  | (k, _) :: rest => k == key || hasOwn key rest

/-- Property assignment `o[key] = v`: overwrite in place, or add at the end. -/
def assign (key : String) (v : JVal) : List (String × JVal) → List (String × JVal)
  | [] => [(key, v)]
  | (k, w) :: rest => if k == key then (k, v) :: rest else (k, w) :: assign key v rest

/-- Join already converted pieces with the separator of `Array.prototype.join`. -/
def joinComma : List String → String
  | [] => ""
  | [s] => s
  | s :: rest => s ++ "," ++ joinComma rest

mutual
/-- ECMAScript `ToString` as `Array.prototype.join` applies it to one element; `none`
is a thrown `TypeError` (an object whose own `toString` property is not callable). -/
def elemText : JVal → Option String
  | undefined => some ""
  | null => some ""
  | bool b => some (if b then "true" else "false")
  | num text => some text
  | str s => some s
  | arr elems => (elemTexts elems).map joinComma
  | obj props => if hasOwn "toString" props then none else some "[object Object]"
/-- Element-wise `elemText`, failing as soon as one element throws. -/
def elemTexts : List JVal → Option (List String)
  | [] => some []
  | v :: rest =>
    match elemText v, elemTexts rest with
    | some s, some ss => some (s :: ss)
    | _, _ => none
end

/-- The `toString` helper of express-validator that feeds the validator.js checks:
objects go through their `toString`, or are rendered as `[object Object]` when their own
`toString` is a truthy value that cannot be called; `null` and `undefined` become the
empty text, everything else is `String(value)`.  `none` is a thrown `TypeError`. -/
def stringify : JVal → Option String
  | undefined => some ""
  | null => some ""
  | bool b => some (if b then "true" else "false")
  | num text => some text
  | str s => some s
  | arr elems => (elemTexts elems).map joinComma
  | obj props =>
    if hasOwn "toString" props then
      if truthy (lookup "toString" props) then some "[object Object]" else none
    else some "[object Object]"

end JVal

open JVal

/-- Read `req.body[key]`; anything but an object has none of the fields. -/
def getField (body : JVal) (key : String) : JVal :=
  match body with
  | obj props => lookup key props
  | _ => undefined

/-! ## validator.js checks on text -/

/-- Character class `[0-9]`. -/
def isDigit (c : Char) : Bool := decide ('0' ≤ c) && decide (c ≤ '9')

/-- The check `validator.isNumeric`: the text matches `^[+-]?([0-9]*[.])?[0-9]+$`.
Its options are `no_symbols` and `locale` only. -/
def isNumeric (s : String) : Bool :=
  let unsigned : List Char :=
    match s.toList with
    | '+' :: rest => rest
    | '-' :: rest => rest
    | cs => cs
  match unsigned.dropWhile isDigit with
  | [] => !unsigned.isEmpty
  | '.' :: frac => !frac.isEmpty && frac.all isDigit
  | _ => false

/-- The check `validator.isIn` against a list of allowed texts. -/
def isIn (values : List String) (s : String) : Bool := values.contains s

/-- The check `validator.isBoolean` in its default, non-loose mode. -/
def isBoolean (s : String) : Bool := ["true", "false", "1", "0"].contains s

/-! ## The validation chains -/

/-- The validators used by `todoValidation`, with the options object passed at the
call site. -/
inductive Validator where
  | isString (min : Option Nat) : Validator
  | isNumeric (min : Option Nat) : Validator
  | isIn (values : List String) : Validator
  | isArray (min : Option Nat) : Validator
  | isBoolean : Validator

/-- One `body(field)...withMessage(message)` chain. -/
structure ValidationChain where
  field : String
  optional : Bool
  validator : Validator
  message : String

/-- The array `todoValidation` of `server.js`. -/
def todoValidation : List ValidationChain :=
  [ ⟨"name", false, .isString (some 3),
      "Name must be a string at least 3 characters long"⟩,
    ⟨"description", false, .isString (some 10),
      "Description must be a string at least 10 characters long"⟩,
    ⟨"price", false, .isNumeric (some 1),
      "Price must be greater than zero"⟩,
    ⟨"category", false, .isIn ["appetizer", "entree", "dessert", "beverage"],
      "Category must be one of: appetizer, entree, dessert, beverage"⟩,
    ⟨"ingredients", false, .isArray (some 1),
      "Ingredients must be an array with at least one ingredient"⟩,
    ⟨"available", true, .isBoolean,
      "Available must be true or false"⟩ ]

/-- A validator.js check run the express-validator way: an array is checked element by
element, every value is stringified first, and each failing value adds the message
once.  `none` when stringification throws. -/
def runStandard (check : String → Bool) (message : String) : List JVal → Option (List String)
  | [] => some []
  | v :: rest =>
    match stringify v, runStandard check message rest with
    | some s, some errs => some (if check s then errs else message :: errs)
    | _, _ => none

/-- The values a validator.js check is applied to. -/
def standardValues : JVal → List JVal
  | arr elems => elems
  | v => [v]

/-- Messages one validator adds for one field value.  `isString()` takes no options,
so the `min` handed to it is not consulted; `isNumeric` has no `min` option either. -/
def runValidator (message : String) (value : JVal) : Validator → Option (List String)
  | .isString _ => some (if value.isStr then [] else [message])
  | .isNumeric _ => runStandard isNumeric message (standardValues value)
  | .isIn values => runStandard (isIn values) message (standardValues value)
  | .isArray min =>
    match value with
    | arr elems =>
      some (if (match min with | none => true | some n => decide (n ≤ elems.length))
        then [] else [message])
    | _ => some [message]
  | .isBoolean => runStandard isBoolean message (standardValues value)

/-- Run one chain on the body.  An optional chain is skipped when the field is
`undefined`. -/
def runChain (body : JVal) (c : ValidationChain) : Option (List String) :=
  if c.optional && (getField body c.field).isUndefined then some []
  else runValidator c.message (getField body c.field) c.validator

/-- The chains run in order; `validationResult(req).array().map(e => e.msg)` is the
concatenation of their messages.  `none` when a chain throws. -/
def validationResult (body : JVal) : List ValidationChain → Option (List String)
  | [] => some []
  | c :: rest =>
    match runChain body c, validationResult body rest with
    | some errs, some more => some (errs ++ more)
    | _, _ => none

/-! ## Records, responses and the seeded array -/

/-- A record of the `menuItems` array.  The six body fields are stored as received. -/
structure MenuItem where
  id : Int
  name : JVal
  description : JVal
  price : JVal
  category : JVal
  ingredients : JVal
  available : JVal

/-- The JSON document sent back. -/
inductive Payload where
  | home : Payload
  | list (items : List MenuItem) : Payload
  | item (menuItem : MenuItem) : Payload
  | deleted (message : String) (menuItem : Option MenuItem) : Payload
  | error (error : String) : Payload
  | invalid (error : String) (messages : List String) : Payload
  | unhandled : Payload

/-- An HTTP response: status code and JSON document. -/
structure Response where
  status : Nat
  payload : Payload

/-- What the validation middleware does with a request: answer it, or call `next()`
with the body it leaves in `req.body`. -/
inductive Checked where
  | answered (res : Response) : Checked
  | next (body : JVal) : Checked

/-- The middleware `handleValidationErrors`, given the messages collected by the
chains: 400 with all messages, or default `completed` and go on.  With no message the
body is an object, so the last case is never the one taken. -/
def handleValidationErrors (body : JVal) (errors : List String) : Checked :=
  if !errors.isEmpty then
    .answered ⟨400, .invalid "Validation failed" errors⟩
  else
    match body with
    | obj props =>
      .next (if (lookup "completed" props).isUndefined
        then obj (assign "completed" (.bool false) props) else body)
    | _ => .next body

/-- The middleware stack `todoValidation, handleValidationErrors` of the POST and PUT
routes.  A chain that throws ends in the default error handler of Express. -/
def validate (body : JVal) : Checked :=
  match validationResult body todoValidation with
  | none => .answered ⟨500, .unhandled⟩
  | some errors => handleValidationErrors body errors

/-- The array `menuItems` as the process starts. -/
def menuItems : List MenuItem :=
  [ { id := 1, name := .str "Classic Burger",
      description := .str "Beef patty with lettuce, tomato, and cheese on a sesame seed bun",
      price := .num "12.99", category := .str "entree",
      ingredients := .arr [.str "beef", .str "lettuce", .str "tomato", .str "cheese", .str "bun"],
      available := .bool true },
    { id := 2, name := .str "Chicken Caesar Salad",
      description := .str "Grilled chicken breast over romaine lettuce with parmesan and croutons",
      price := .num "11.5", category := .str "entree",
      ingredients := .arr [.str "chicken", .str "romaine lettuce", .str "parmesan cheese",
        .str "croutons", .str "caesar dressing"],
      available := .bool true },
    { id := 3, name := .str "Mozzarella Sticks",
      description := .str "Crispy breaded mozzarella served with marinara sauce",
      price := .num "8.99", category := .str "appetizer",
      ingredients := .arr [.str "mozzarella cheese", .str "breadcrumbs", .str "marinara sauce"],
      available := .bool true },
    { id := 4, name := .str "Chocolate Lava Cake",
      description := .str "Warm chocolate cake with molten center, served with vanilla ice cream",
      price := .num "7.99", category := .str "dessert",
      ingredients := .arr [.str "chocolate", .str "flour", .str "eggs", .str "butter",
        .str "vanilla ice cream"],
      available := .bool true },
    { id := 5, name := .str "Fresh Lemonade",
      description := .str "House-made lemonade with fresh lemons and mint",
      price := .num "3.99", category := .str "beverage",
      ingredients := .arr [.str "lemons", .str "sugar", .str "water", .str "mint"],
      available := .bool true },
    { id := 6, name := .str "Fish and Chips",
      description := .str "Beer-battered cod with seasoned fries and coleslaw",
      price := .num "14.99", category := .str "entree",
      ingredients := .arr [.str "cod", .str "beer batter", .str "potatoes", .str "coleslaw",
        .str "tartar sauce"],
      available := .bool false } ]

/-! ## Built-ins used by the handlers -/

/-- White space and line terminators skipped by `parseInt`. -/
def isStrWhiteSpace (c : Char) : Bool :=
  [0x09, 0x0A, 0x0B, 0x0C, 0x0D, 0x20, 0xA0, 0x1680, 0x2000, 0x2001, 0x2002, 0x2003,
    0x2004, 0x2005, 0x2006, 0x2007, 0x2008, 0x2009, 0x200A, 0x2028, 0x2029, 0x202F,
    0x205F, 0x3000, 0xFEFF].contains c.toNat

/-- Value of a character as a digit of the given radix (10 or 16). -/
def digitValue (radix : Nat) (c : Char) : Option Nat :=
  if decide ('0' ≤ c) && decide (c ≤ '9') then some (c.toNat - 48)
  else if radix == 16 && decide ('a' ≤ c) && decide (c ≤ 'f') then some (c.toNat - 87)
  else if radix == 16 && decide ('A' ≤ c) && decide (c ≤ 'F') then some (c.toNat - 55)
  else none

/-- The longest run of leading digits, as digit values. -/
def leadingDigits (radix : Nat) : List Char → List Nat
  | [] => []
  | c :: rest =>
    match digitValue radix c with
    | some d => d :: leadingDigits radix rest
    | none => []

/-- The call `parseInt(s)` with no radix argument: skip white space, read a sign, switch
to radix 16 after `0x`, read digits up to the first other character.  `none` is `NaN`.
The value is the exact integer; JavaScript rounds it to a double from 2^53 on, beyond
any id the array can hold. -/
def parseInt (s : String) : Option Int :=
  let trimmed := s.toList.dropWhile isStrWhiteSpace
  let signed : Bool × List Char :=
    match trimmed with
    | '-' :: rest => (true, rest)
    | '+' :: rest => (false, rest)
    | cs => (false, cs)
  let based : Nat × List Char :=
    match signed.2 with
    | '0' :: 'x' :: rest => (16, rest)
    | '0' :: 'X' :: rest => (16, rest)
    | cs => (10, cs)
  match leadingDigits based.1 based.2 with
  | [] => none
  | ds =>
    let magnitude : Nat := ds.foldl (fun acc d => acc * based.1 + d) 0
    some (if signed.1 then -(magnitude : Int) else (magnitude : Int))

/-- The test `m.id === menuId` of the three by-id handlers. -/
def idIs (menuId : Option Int) (m : MenuItem) : Bool :=
  match menuId with
  | none => false
  | some n => decide (m.id = n)

/-- The method `Array.prototype.find`: first element passing the test. -/
def find {α : Type} (p : α → Bool) : List α → Option α
  | [] => none
  | x :: rest => if p x then some x else find p rest

/-- The method `Array.prototype.findIndex`; `none` stands for `-1`. -/
def findIndex {α : Type} (p : α → Bool) : List α → Option Nat
  | [] => none
  | x :: rest => if p x then some 0 else (findIndex p rest).map (· + 1)

/-- The method `Array.prototype.splice(start, deleteCount)`: the removed elements and
the array that remains. -/
def splice {α : Type} (start deleteCount : Nat) (xs : List α) : List α × List α :=
  ((xs.drop start).take deleteCount, xs.take start ++ xs.drop (start + deleteCount))

/-! ## Route handlers -/

/-- The record literal built by the POST and PUT handlers from the destructured body. -/
def recordOf (id : Int) (body : JVal) : MenuItem :=
  { id := id,
    name := getField body "name",
    description := getField body "description",
    price := getField body "price",
    category := getField body "category",
    ingredients := getField body "ingredients",
    available := getField body "available" }

/-- Handler of `GET /`: the listing of the routes. -/
def getHome (items : List MenuItem) : Response × List MenuItem :=
  (⟨200, .home⟩, items)

/-- Handler of `GET /api/menu`. -/
def getMenu (items : List MenuItem) : Response × List MenuItem :=
  (⟨200, .list items⟩, items)

/-- Handler of `GET /api/menu/:id`. -/
def getMenuById (items : List MenuItem) (idParam : String) : Response × List MenuItem :=
  let menuId := parseInt idParam
  match find (idIs menuId) items with
  | some menuItem => (⟨200, .item menuItem⟩, items)
  | none => (⟨404, .error "Menu item not found"⟩, items)

/-- Handler of `POST /api/menu`, behind the validation middleware. -/
def postMenu (items : List MenuItem) (body : JVal) : Response × List MenuItem :=
  match validate body with
  | .answered res => (res, items)
  | .next body =>
    let newMenuItem := recordOf ((items.length : Int) + 1) body
    (⟨201, .item newMenuItem⟩, items ++ [newMenuItem])

/-- Handler of `PUT /api/menu/:id`, behind the validation middleware. -/
def putMenuById (items : List MenuItem) (idParam : String) (body : JVal) :
    Response × List MenuItem :=
  match validate body with
  | .answered res => (res, items)
  | .next body =>
    let menuId := parseInt idParam
    match menuId, findIndex (idIs menuId) items with
    | some n, some menuItemIndex =>
      let updated := recordOf n body
      (⟨200, .item updated⟩, items.set menuItemIndex updated)
    | _, _ => (⟨404, .error "Menu item not found"⟩, items)

/-- Handler of `DELETE /api/menu/:id`. -/
def deleteMenuById (items : List MenuItem) (idParam : String) : Response × List MenuItem :=
  let menuId := parseInt idParam
  match findIndex (idIs menuId) items with
  | none => (⟨404, .error "Menu item not found"⟩, items)
  | some menuItemIndex =>
    let spliced := splice menuItemIndex 1 items
    (⟨200, .deleted "Menu item deleted successfully" spliced.1.head?⟩, spliced.2)

/-! ## Requests and reachable states -/

/-- States of the array reachable from the seeded data by create, update and delete
requests, whatever their outcome. -/
inductive Reachable : List MenuItem → Prop where
  | seeded : Reachable menuItems
  | create (items : List MenuItem) (body : JVal) :
      Reachable items → Reachable (postMenu items body).2
  | update (items : List MenuItem) (idParam : String) (body : JVal) :
      Reachable items → Reachable (putMenuById items idParam body).2
  | delete (items : List MenuItem) (idParam : String) :
      Reachable items → Reachable (deleteMenuById items idParam).2

/-- The body passes validation: no chain throws and no message is collected. -/
abbrev Valid (body : JVal) : Prop := validationResult body todoValidation = some []

/-! ## Sample payloads -/

/-- The Taco payload of the end-to-end example. -/
def taco : JVal :=
  .obj [("name", .str "Taco"), ("description", .str "Crispy corn taco with beef"),
    ("price", .num "4.5"), ("category", .str "entree"),
    ("ingredients", .arr [.str "beef", .str "corn tortilla"])]

/-- An update payload that also carries an `id` of its own. -/
def burrito : JVal :=
  .obj [("id", .num "99"), ("name", .str "Burrito"),
    ("description", .str "Flour tortilla with rice and beans"),
    ("price", .num "9.25"), ("category", .str "entree"),
    ("ingredients", .arr [.str "rice", .str "beans"]), ("available", .bool false)]

/-- The Taco payload with its name cut to two characters. -/
def shortName : JVal :=
  .obj [("name", .str "ab"), ("description", .str "Crispy corn taco with beef"),
    ("price", .num "4.5"), ("category", .str "entree"),
    ("ingredients", .arr [.str "beef", .str "corn tortilla"])]

/-- A payload with a two-character name and a category outside the enumeration. -/
def twoFaults : JVal :=
  .obj [("name", .str "ab"), ("description", .str "Crispy corn taco with beef"),
    ("price", .num "4.5"), ("category", .str "pizza"),
    ("ingredients", .arr [.str "beef", .str "corn tortilla"])]

/-- The seeded array after `DELETE /api/menu/3`. -/
def afterDelete : List MenuItem := (deleteMenuById menuItems "3").2

/-- The array after `DELETE /api/menu/3` and then a `POST /api/menu` of the Taco
payload. -/
def afterReuse : List MenuItem := (postMenu afterDelete taco).2

/-! ## The rules of the validation table, in the words of the specification -/

/-- Rule for `name`: text, minimum length 3. -/
def specName (body : JVal) : Bool :=
  match getField body "name" with
  | str s => decide (3 ≤ s.length)
  | _ => false

/-- Rule for `description`: text, minimum length 10. -/
def specDescription (body : JVal) : Bool :=
  match getField body "description" with
  | str s => decide (10 ≤ s.length)
  | _ => false

/-- Rule for `price`: numeric, greater than zero.  On the canonical text of a number
this is: not zero and no minus sign. -/
def specPrice (body : JVal) : Bool :=
  match getField body "price" with
  | num text => text != "0" && text.toList.head? != some '-'
  | _ => false

/-- Rule for `category`: one of the fixed four-value enumeration. -/
def specCategory (body : JVal) : Bool :=
  match getField body "category" with
  | str s => ["appetizer", "entree", "dessert", "beverage"].contains s
  | _ => false

/-- Rule for `ingredients`: sequence, minimum 1 element. -/
def specIngredients (body : JVal) : Bool :=
  match getField body "ingredients" with
  | arr elems => decide (1 ≤ elems.length)
  | _ => false

/-- Rule for `available`: optional; if present must be boolean. -/
def specAvailable (body : JVal) : Bool :=
  match getField body "available" with
  | .undefined => true
  | .bool _ => true
  | _ => false

/-- The number of rules of the table that a body violates. -/
def specViolations (body : JVal) : Nat :=
  ([specName body, specDescription body, specPrice body, specCategory body,
    specIngredients body, specAvailable body].filter (fun ok => !ok)).length

/-! ## Lemmas on the built-ins -/

theorem lookup_assign_of_ne (key q : String) (v : JVal) (hne : key ≠ q)
    (props : List (String × JVal)) : lookup q (assign key v props) = lookup q props := by
  induction props with
  | nil => simp [assign, lookup, hne]
  | cons kv rest ih =>
    obtain ⟨k, w⟩ := kv
    by_cases hk : k = key
    · subst hk
      simp [assign, lookup, hne]
    · by_cases hq : k = q
      · subst hq
        simp [assign, lookup, hk]
      · simp [assign, lookup, hk, hq, ih]

theorem findIndex_eq_none {α : Type} (p : α → Bool) (l : List α) :
    findIndex p l = none ↔ ∀ x ∈ l, p x = false := by
  induction l with
  | nil => simp [findIndex]
  | cons a rest ih =>
    by_cases ha : p a = true
    · simp [findIndex, ha]
    · simp [findIndex, ha, ih]

theorem findIndex_eq_some {α : Type} (p : α → Bool) (l : List α) (i : Nat)
    (h : findIndex p l = some i) :
    ∃ pre m post, l = pre ++ m :: post ∧ pre.length = i ∧ p m = true ∧
      ∀ x ∈ pre, p x = false := by
  induction l generalizing i with
  | nil => simp [findIndex] at h
  | cons a rest ih =>
    by_cases ha : p a = true
    · simp [findIndex, ha] at h
      exact ⟨[], a, rest, rfl, by simpa using h, ha, by simp⟩
    · simp [findIndex, ha] at h
      obtain ⟨j, hj, rfl⟩ := h
      obtain ⟨pre, m, post, hl, hlen, hm, hpre⟩ := ih j hj
      refine ⟨a :: pre, m, post, by simp [hl], by simp [hlen], hm, ?_⟩
      intro x hx
      rcases List.mem_cons.mp hx with rfl | hx
      · simpa using ha
      · exact hpre x hx

theorem find_first {α : Type} (p : α → Bool) (pre post : List α) (m : α)
    (hpre : ∀ x ∈ pre, p x = false) (hm : p m = true) :
    find p (pre ++ m :: post) = some m := by
  induction pre with
  | nil => simp [find, hm]
  | cons a rest ih =>
    have ha : p a = false := hpre a (by simp)
    simp only [List.cons_append, find, ha]
    exact ih (fun x hx => hpre x (by simp [hx]))

theorem find_eq_none {α : Type} (p : α → Bool) (l : List α) (h : ∀ x ∈ l, p x = false) :
    find p l = none := by
  induction l with
  | nil => rfl
  | cons a rest ih =>
    have ha : p a = false := h a (by simp)
    simp only [find, ha]
    exact ih (fun x hx => h x (by simp [hx]))

theorem set_first {α : Type} (pre post : List α) (m x : α) :
    (pre ++ m :: post).set pre.length x = pre ++ x :: post := by
  induction pre with
  | nil => rfl
  | cons a rest ih => simp [List.set, ih]

theorem splice_first {α : Type} (pre post : List α) (m : α) :
    splice pre.length 1 (pre ++ m :: post) = ([m], pre ++ post) := by
  simp [splice]

theorem idIs_some (n : Int) (m : MenuItem) : idIs (some n) m = true ↔ m.id = n := by
  simp [idIs]

theorem idIs_false_of_ne (menuId : Option Int) (m : MenuItem) (h : some m.id ≠ menuId) :
    idIs menuId m = false := by
  cases menuId with
  | none => rfl
  | some n =>
    have : m.id ≠ n := fun e => h (by rw [e])
    simp [idIs, this]

/-! ## The validation middleware -/

theorem validationResult_cons_nil (body : JVal) (c : ValidationChain)
    (rest : List ValidationChain) (h : validationResult body (c :: rest) = some []) :
    runChain body c = some [] ∧ validationResult body rest = some [] := by
  unfold validationResult at h
  cases hc : runChain body c with
  | none => simp [hc] at h
  | some errs =>
    cases hr : validationResult body rest with
    | none => simp [hc, hr] at h
    | some more =>
      simp only [hc, hr, Option.some.injEq, List.append_eq_nil] at h
      simp [h.1, h.2]

theorem validate_of_valid (body : JVal) (h : Valid body) :
    ∃ b, validate body = .next b ∧ ∀ id, recordOf id b = recordOf id body := by
  unfold validate
  rw [h]
  cases body with
  | obj props =>
    by_cases hc : (lookup "completed" props).isUndefined = true
    · refine ⟨obj (assign "completed" (.bool false) props), by simp [handleValidationErrors, hc], ?_⟩
      intro id
      simp [recordOf, getField, lookup_assign_of_ne]
    · exact ⟨obj props, by simp [handleValidationErrors, hc], fun _ => rfl⟩
  | _ => exact ⟨_, rfl, fun _ => rfl⟩

/-- The middleware stack calls `next()` exactly on the bodies that pass validation. -/
theorem validate_next_iff (body : JVal) : (∃ b, validate body = .next b) ↔ Valid body := by
  constructor
  · rintro ⟨b, hb⟩
    unfold validate at hb
    cases hr : validationResult body todoValidation with
    | none => simp [hr] at hb
    | some errors =>
      cases errors with
      | nil => exact hr
      | cons e rest => simp [hr, handleValidationErrors] at hb
  · intro h
    obtain ⟨b, hb, -⟩ := validate_of_valid body h
    exact ⟨b, hb⟩

/-- A body that passes validation is an object, so `handleValidationErrors` always finds
one when it defaults `completed`. -/
theorem valid_is_object (body : JVal) (h : Valid body) : ∃ props, body = obj props := by
  have hname := (validationResult_cons_nil body _ _ h).1
  cases body with
  | obj props => exact ⟨props, rfl⟩
  | _ => simp [runChain, runValidator, getField, JVal.isStr] at hname

/-! ## The handlers on a located record -/

theorem findIndex_first {α : Type} (p : α → Bool) (pre post : List α) (m : α)
    (hpre : ∀ x ∈ pre, p x = false) (hm : p m = true) :
    findIndex p (pre ++ m :: post) = some pre.length := by
  induction pre with
  | nil => simp [findIndex, hm]
  | cons a rest ih =>
    have ha : p a = false := hpre a (by simp)
    simp [findIndex, ha, ih (fun x hx => hpre x (by simp [hx]))]

theorem split_first (items : List MenuItem) (n : Int) (h : ∃ m ∈ items, m.id = n) :
    ∃ pre m post, items = pre ++ m :: post ∧ m.id = n ∧ ∀ x ∈ pre, x.id ≠ n := by
  cases hf : findIndex (idIs (some n)) items with
  | none =>
    obtain ⟨m, hm, hid⟩ := h
    have := (findIndex_eq_none _ _).mp hf m hm
    simp [idIs, hid] at this
  | some i =>
    obtain ⟨pre, m, post, hl, -, hm, hpre⟩ := findIndex_eq_some _ _ _ hf
    refine ⟨pre, m, post, hl, (idIs_some n m).mp hm, ?_⟩
    intro x hx hxn
    have := hpre x hx
    simp [idIs, hxn] at this

theorem idIs_pre (n : Int) (pre : List MenuItem) (hpre : ∀ x ∈ pre, x.id ≠ n) :
    ∀ x ∈ pre, idIs (some n) x = false := by
  intro x hx
  simp [idIs, hpre x hx]

theorem get_first (pre post : List MenuItem) (m : MenuItem) (n : Int) (idParam : String)
    (hp : parseInt idParam = some n) (hm : m.id = n) (hpre : ∀ x ∈ pre, x.id ≠ n) :
    getMenuById (pre ++ m :: post) idParam = (⟨200, .item m⟩, pre ++ m :: post) := by
  simp only [getMenuById, hp]
  rw [find_first _ pre post m (idIs_pre n pre hpre) ((idIs_some n m).mpr hm)]

theorem put_first (pre post : List MenuItem) (m : MenuItem) (n : Int) (idParam : String)
    (body : JVal) (h : Valid body) (hp : parseInt idParam = some n) (hm : m.id = n)
    (hpre : ∀ x ∈ pre, x.id ≠ n) :
    putMenuById (pre ++ m :: post) idParam body =
      (⟨200, .item (recordOf n body)⟩, pre ++ recordOf n body :: post) := by
  obtain ⟨b, hb, hrec⟩ := validate_of_valid body h
  simp only [putMenuById, hb, hp]
  rw [findIndex_first _ pre post m (idIs_pre n pre hpre) ((idIs_some n m).mpr hm)]
  simp only [hrec, set_first]

theorem put_absent (items : List MenuItem) (idParam : String) (body : JVal) (h : Valid body)
    (ha : ∀ m ∈ items, some m.id ≠ parseInt idParam) :
    putMenuById items idParam body = (⟨404, .error "Menu item not found"⟩, items) := by
  obtain ⟨b, hb, -⟩ := validate_of_valid body h
  have hf : findIndex (idIs (parseInt idParam)) items = none :=
    (findIndex_eq_none _ _).mpr (fun x hx => idIs_false_of_ne _ x (ha x hx))
  simp only [putMenuById, hb, hf]
  cases parseInt idParam <;> rfl

theorem delete_first (pre post : List MenuItem) (m : MenuItem) (n : Int) (idParam : String)
    (hp : parseInt idParam = some n) (hm : m.id = n) (hpre : ∀ x ∈ pre, x.id ≠ n) :
    deleteMenuById (pre ++ m :: post) idParam =
      (⟨200, .deleted "Menu item deleted successfully" (some m)⟩, pre ++ post) := by
  simp only [deleteMenuById, hp]
  rw [findIndex_first _ pre post m (idIs_pre n pre hpre) ((idIs_some n m).mpr hm)]
  simp only [splice_first, List.head?_cons]

theorem post_valid (items : List MenuItem) (body : JVal) (h : Valid body) :
    postMenu items body =
      (⟨201, .item (recordOf ((items.length : Int) + 1) body)⟩,
        items ++ [recordOf ((items.length : Int) + 1) body]) := by
  obtain ⟨b, hb, hrec⟩ := validate_of_valid body h
  simp only [postMenu, hb, hrec]

/-! ## Create -/

/-- C1: for every collection and every body that passes validation, `POST /api/menu`
answers 201 with a record whose id is the number of items before the request plus 1 and
whose six fields are the submitted ones, and the collection afterwards is the prior
collection with that record appended at the end. -/
theorem postMenu_appends (items : List MenuItem) (body : JVal) (h : Valid body) :
    postMenu items body =
        (⟨201, .item (recordOf ((items.length : Int) + 1) body)⟩,
          items ++ [recordOf ((items.length : Int) + 1) body]) ∧
      (recordOf ((items.length : Int) + 1) body).id = (items.length : Int) + 1 :=
  ⟨post_valid items body h, rfl⟩

/-- On the seeded data the Taco payload is answered 201 with id 7, and `available`
stays `undefined` in the stored record. -/
theorem postMenu_appends_witness :
    Valid taco ∧
      (postMenu menuItems taco =
        (⟨201, .item (recordOf 7 taco)⟩, menuItems ++ [recordOf 7 taco]) ∧
      (recordOf 7 taco).id = 7) ∧
      (recordOf 7 taco).name = .str "Taco" ∧ (recordOf 7 taco).available = .undefined :=
  ⟨by decide, postMenu_appends menuItems taco (by decide), rfl, rfl⟩

/-! ## Delete -/

/-- C4: when no record has the id the path parses to, which includes a path that parses
to `NaN`, `DELETE /api/menu/:id` answers 404 with the error `Menu item not found` and
leaves the collection as it was. -/
theorem deleteMenuById_absent (items : List MenuItem) (idParam : String)
    (h : ∀ m ∈ items, some m.id ≠ parseInt idParam) :
    deleteMenuById items idParam = (⟨404, .error "Menu item not found"⟩, items) ∧
      (deleteMenuById items idParam).2.length = items.length := by
  have hf : findIndex (idIs (parseInt idParam)) items = none :=
    (findIndex_eq_none _ _).mpr (fun x hx => idIs_false_of_ne _ x (h x hx))
  simp [deleteMenuById, hf]

/-- On the seeded data the path `abc`, which parses to `NaN`, is answered 404. -/
theorem deleteMenuById_absent_witness :
    (∀ m ∈ menuItems, some m.id ≠ parseInt "abc") ∧
      deleteMenuById menuItems "abc" = (⟨404, .error "Menu item not found"⟩, menuItems) ∧
      (deleteMenuById menuItems "abc").2.length = menuItems.length :=
  ⟨by decide, deleteMenuById_absent menuItems "abc" (by decide)⟩

/-- C5: when some record has the id of the path, `DELETE /api/menu/:id` answers 200 with
the first such record and the collection afterwards is the prior one with exactly that
record taken out: one shorter, the others kept in their order. -/
theorem deleteMenuById_removes_first (items : List MenuItem) (idParam : String) (n : Int)
    (hp : parseInt idParam = some n) (hm : ∃ m ∈ items, m.id = n) :
    ∃ pre m post, items = pre ++ m :: post ∧ m.id = n ∧ (∀ x ∈ pre, x.id ≠ n) ∧
      deleteMenuById items idParam =
        (⟨200, .deleted "Menu item deleted successfully" (some m)⟩, pre ++ post) ∧
      (deleteMenuById items idParam).2.length + 1 = items.length := by
  obtain ⟨pre, m, post, hl, hid, hpre⟩ := split_first items n hm
  have hd := delete_first pre post m n idParam hp hid hpre
  refine ⟨pre, m, post, hl, hid, hpre, hl ▸ hd, ?_⟩
  rw [hl, hd]
  simp
  omega

/-- On the seeded data `DELETE /api/menu/3` returns the record named
`Mozzarella Sticks`. -/
theorem deleteMenuById_removes_first_witness :
    parseInt "3" = some 3 ∧ (∃ m ∈ menuItems, m.id = 3) ∧
      (∃ pre m post, menuItems = pre ++ m :: post ∧ m.id = 3 ∧ (∀ x ∈ pre, x.id ≠ 3) ∧
        deleteMenuById menuItems "3" =
          (⟨200, .deleted "Menu item deleted successfully" (some m)⟩, pre ++ post) ∧
        (deleteMenuById menuItems "3").2.length + 1 = menuItems.length) ∧
      (∃ m, (deleteMenuById menuItems "3").1 =
          ⟨200, .deleted "Menu item deleted successfully" (some m)⟩ ∧
        m.name = .str "Mozzarella Sticks") :=
  ⟨by decide, by decide,
    deleteMenuById_removes_first menuItems "3" 3 (by decide) (by decide), ⟨_, rfl, rfl⟩⟩

/-! ## Update -/

/-- C10: for a body that passes validation, `PUT /api/menu/:id` answers 404 and leaves
the collection as it was when no record has the id of the path; otherwise it answers 200
with the record whose id is the path id and whose name, description, price, category,
ingredients and available are those of the body, and that record stands at the position
of the first record with that id, the length and every other position being untouched. -/
theorem putMenuById_replaces_first (items : List MenuItem) (idParam : String) (body : JVal)
    (h : Valid body) :
    ((∀ m ∈ items, some m.id ≠ parseInt idParam) →
        putMenuById items idParam body = (⟨404, .error "Menu item not found"⟩, items)) ∧
      (∀ n, parseInt idParam = some n → (∃ m ∈ items, m.id = n) →
        ∃ pre m post, items = pre ++ m :: post ∧ m.id = n ∧ (∀ x ∈ pre, x.id ≠ n) ∧
          putMenuById items idParam body =
            (⟨200, .item
                { id := n,
                  name := getField body "name",
                  description := getField body "description",
                  price := getField body "price",
                  category := getField body "category",
                  ingredients := getField body "ingredients",
                  available := getField body "available" }⟩,
              pre ++
                { id := n,
                  name := getField body "name",
                  description := getField body "description",
                  price := getField body "price",
                  category := getField body "category",
                  ingredients := getField body "ingredients",
                  available := getField body "available" } :: post) ∧
          (putMenuById items idParam body).2.length = items.length) := by
  refine ⟨put_absent items idParam body h, ?_⟩
  intro n hp hm
  obtain ⟨pre, m, post, hl, hid, hpre⟩ := split_first items n hm
  have hput := put_first pre post m n idParam body h hp hid hpre
  refine ⟨pre, m, post, hl, hid, hpre, hl ▸ hput, ?_⟩
  rw [hl, hput]
  simp

/-- On the seeded data with the Burrito payload: the path `99` is answered 404 and the
array stays as it is; the path `2` is answered 200 with id 2 and the six Burrito values,
and that record takes the place of the second seeded record, the other five staying. -/
theorem putMenuById_replaces_first_witness :
    Valid burrito ∧
      ((∀ m ∈ menuItems, some m.id ≠ parseInt "99") ∧
        putMenuById menuItems "99" burrito =
          (⟨404, .error "Menu item not found"⟩, menuItems)) ∧
      (parseInt "2" = some 2 ∧ (∃ m ∈ menuItems, m.id = 2) ∧
        ∃ pre m post, menuItems = pre ++ m :: post ∧ m.id = 2 ∧ (∀ x ∈ pre, x.id ≠ 2) ∧
          putMenuById menuItems "2" burrito =
            (⟨200, .item
                { id := 2,
                  name := .str "Burrito",
                  description := .str "Flour tortilla with rice and beans",
                  price := .num "9.25",
                  category := .str "entree",
                  ingredients := .arr [.str "rice", .str "beans"],
                  available := .bool false }⟩,
              pre ++
                { id := 2,
                  name := .str "Burrito",
                  description := .str "Flour tortilla with rice and beans",
                  price := .num "9.25",
                  category := .str "entree",
                  ingredients := .arr [.str "rice", .str "beans"],
                  available := .bool false } :: post) ∧
          (putMenuById menuItems "2" burrito).2.length = menuItems.length) ∧
      (putMenuById menuItems "2" burrito).2.map MenuItem.id = [1, 2, 3, 4, 5, 6] ∧
      (putMenuById menuItems "2" burrito).2.map MenuItem.name =
        [.str "Classic Burger", .str "Burrito", .str "Mozzarella Sticks",
          .str "Chocolate Lava Cake", .str "Fresh Lemonade", .str "Fish and Chips"] :=
  ⟨by decide,
    ⟨by decide, (putMenuById_replaces_first menuItems "99" burrito (by decide)).1 (by decide)⟩,
    ⟨by decide, by decide,
      (putMenuById_replaces_first menuItems "2" burrito (by decide)).2 2 (by decide)
        (by decide)⟩,
    by decide, rfl⟩

/-- C3: create, then update through a path that parses to the created id, then fetch
through the same path: the creation answers 201, the update answers 200 and the fetch
answers 200, both with the record whose name, description, price, category, ingredients
and available are those of the update body and whose id is the id of the path, whatever
`id` the update body carries. -/
theorem create_update_get (items : List MenuItem) (created updated : JVal) (idParam : String)
    (hc : Valid created) (hu : Valid updated)
    (hp : parseInt idParam = some ((items.length : Int) + 1)) :
    (postMenu items created).1 =
        ⟨201, .item
          { id := (items.length : Int) + 1,
            name := getField created "name",
            description := getField created "description",
            price := getField created "price",
            category := getField created "category",
            ingredients := getField created "ingredients",
            available := getField created "available" }⟩ ∧
      (putMenuById (postMenu items created).2 idParam updated).1 =
        ⟨200, .item
          { id := (items.length : Int) + 1,
            name := getField updated "name",
            description := getField updated "description",
            price := getField updated "price",
            category := getField updated "category",
            ingredients := getField updated "ingredients",
            available := getField updated "available" }⟩ ∧
      (getMenuById (putMenuById (postMenu items created).2 idParam updated).2 idParam).1 =
        ⟨200, .item
          { id := (items.length : Int) + 1,
            name := getField updated "name",
            description := getField updated "description",
            price := getField updated "price",
            category := getField updated "category",
            ingredients := getField updated "ingredients",
            available := getField updated "available" }⟩ := by
  rw [post_valid items created hc]
  obtain ⟨pre, m, post, hl, hid, hpre⟩ :=
    split_first (items ++ [recordOf ((items.length : Int) + 1) created])
      ((items.length : Int) + 1)
      ⟨recordOf ((items.length : Int) + 1) created, by simp, rfl⟩
  refine ⟨rfl, ?_, ?_⟩
  · simp only [hl]
    rw [put_first pre post m _ idParam updated hu hp hid hpre]
    rfl
  · simp only [hl]
    rw [put_first pre post m _ idParam updated hu hp hid hpre]
    simp only
    rw [get_first pre post _ _ idParam hp rfl hpre]
    rfl

/-- On the seeded data: create the Taco, update `/api/menu/7` with the Burrito body,
which carries `id: 99`, and fetch `/api/menu/7`: the fetched record has id 7 and the six
Burrito values. -/
theorem create_update_get_witness :
    Valid taco ∧ Valid burrito ∧ parseInt "7" = some (((menuItems.length : Nat) : Int) + 1) ∧
      getField burrito "id" = .num "99" ∧
      (postMenu menuItems taco).1 =
        ⟨201, .item
          { id := 7,
            name := .str "Taco",
            description := .str "Crispy corn taco with beef",
            price := .num "4.5",
            category := .str "entree",
            ingredients := .arr [.str "beef", .str "corn tortilla"],
            available := .undefined }⟩ ∧
      (putMenuById (postMenu menuItems taco).2 "7" burrito).1 =
        ⟨200, .item
          { id := 7,
            name := .str "Burrito",
            description := .str "Flour tortilla with rice and beans",
            price := .num "9.25",
            category := .str "entree",
            ingredients := .arr [.str "rice", .str "beans"],
            available := .bool false }⟩ ∧
      (getMenuById (putMenuById (postMenu menuItems taco).2 "7" burrito).2 "7").1 =
        ⟨200, .item
          { id := 7,
            name := .str "Burrito",
            description := .str "Flour tortilla with rice and beans",
            price := .num "9.25",
            category := .str "entree",
            ingredients := .arr [.str "rice", .str "beans"],
            available := .bool false }⟩ :=
  ⟨by decide, by decide, by decide, rfl,
    create_update_get menuItems taco burrito "7" (by decide) (by decide) (by decide)⟩

/-! ## Ids after a deletion -/

/-- Every record of a reachable collection has a positive id. -/
theorem reachable_ids_pos (items : List MenuItem) (h : Reachable items) :
    ∀ m ∈ items, 0 < m.id := by
  induction h with
  | seeded => decide
  | create items body _ ih =>
    intro m hm
    unfold postMenu at hm
    cases hv : validate body with
    | answered res => rw [hv] at hm; exact ih m hm
    | next b =>
      rw [hv] at hm
      rcases List.mem_append.mp hm with hm | hm
      · exact ih m hm
      · have hid : m.id = (items.length : Int) + 1 := by
          rw [List.mem_singleton.mp hm]; rfl
        omega
  | update items idParam body _ ih =>
    intro m hm
    unfold putMenuById at hm
    cases hv : validate body with
    | answered res => rw [hv] at hm; exact ih m hm
    | next b =>
      rw [hv] at hm
      cases hp : parseInt idParam with
      | none => simp only [hp] at hm; exact ih m hm
      | some n =>
        cases hf : findIndex (idIs (some n)) items with
        | none => simp only [hp, hf] at hm; exact ih m hm
        | some i =>
          simp only [hp, hf] at hm
          obtain ⟨pre, old, post, hl, -, hold, -⟩ := findIndex_eq_some _ _ _ hf
          rcases List.mem_or_eq_of_mem_set hm with hm | hm
          · exact ih m hm
          · have hpos : 0 < old.id := ih old (by simp [hl])
            have hid : m.id = n := by rw [hm]; rfl
            have := (idIs_some n old).mp hold
            omega
  | delete items idParam _ ih =>
    intro m hm
    unfold deleteMenuById at hm
    cases hf : findIndex (idIs (parseInt idParam)) items with
    | none => simp only [hf] at hm; exact ih m hm
    | some i =>
      simp only [hf, splice] at hm
      rcases List.mem_append.mp hm with hm | hm
      · exact ih m (List.mem_of_mem_take hm)
      · exact ih m (List.mem_of_mem_drop hm)

/-- When no record already has the id about to be assigned, the fetch that follows a
creation returns the created record. -/
theorem get_after_create_of_fresh (items : List MenuItem) (body : JVal) (idParam : String)
    (h : Valid body) (hp : parseInt idParam = some ((items.length : Int) + 1))
    (hfresh : ∀ m ∈ items, m.id ≠ (items.length : Int) + 1) :
    (getMenuById (postMenu items body).2 idParam).1 =
      ⟨200, .item (recordOf ((items.length : Int) + 1) body)⟩ := by
  rw [post_valid items body h]
  simp only
  rw [get_first items [] _ _ idParam hp rfl hfresh]

/-- When the ids of the collection are pairwise distinct, the fetch that follows a
successful deletion answers 404. -/
theorem get_after_delete_of_nodup (items : List MenuItem) (idParam : String) (n : Int)
    (hnd : (items.map MenuItem.id).Nodup) (hp : parseInt idParam = some n)
    (hm : ∃ m ∈ items, m.id = n) :
    (deleteMenuById items idParam).1.status = 200 ∧
      (getMenuById (deleteMenuById items idParam).2 idParam).1 =
        ⟨404, .error "Menu item not found"⟩ := by
  obtain ⟨pre, m, post, hl, hid, hpre⟩ := split_first items n hm
  subst hl
  rw [delete_first pre post m n idParam hp hid hpre]
  refine ⟨rfl, ?_⟩
  have hpost : ∀ x ∈ post, x.id ≠ n := by
    intro x hx hxn
    simp only [List.map_append, List.map_cons] at hnd
    have h2 := (List.nodup_append.mp hnd).2.1
    have h3 := (List.nodup_cons.mp h2).1
    exact h3 (List.mem_map.mpr ⟨x, hx, by rw [hxn, hid]⟩)
  simp only [getMenuById, hp]
  rw [find_eq_none]
  intro x hx
  rcases List.mem_append.mp hx with hx | hx
  · exact idIs_pre n pre hpre x hx
  · exact idIs_pre n post hpost x hx

/-- C7: `DELETE /api/menu/3` followed by a `POST /api/menu` of the Taco payload leads
from the seeded data to a collection whose ids are 1, 2, 4, 5, 6, 6: the id 6 occurs
twice. -/
theorem reachable_duplicate_ids :
    Reachable afterReuse ∧ afterReuse.map MenuItem.id = [1, 2, 4, 5, 6, 6] ∧
      ¬ (afterReuse.map MenuItem.id).Nodup :=
  ⟨Reachable.create afterDelete taco (Reachable.delete menuItems "3" Reachable.seeded),
    by decide, by decide⟩

/-- C2: in the collection reached by `DELETE /api/menu/3`, creating the Taco answers 201
with id 6, and the `GET /api/menu/6` that follows answers 200 with the record named
`Fish and Chips`, not with the submitted fields. -/
theorem get_after_create_returns_older_record :
    Reachable afterDelete ∧ Valid taco ∧
      (postMenu afterDelete taco).1 = ⟨201, .item (recordOf 6 taco)⟩ ∧
      (recordOf 6 taco).name = .str "Taco" ∧
      ∃ m, (getMenuById (postMenu afterDelete taco).2 "6").1 = ⟨200, .item m⟩ ∧
        m.name = .str "Fish and Chips" :=
  ⟨Reachable.delete menuItems "3" Reachable.seeded, by decide, rfl, rfl, _, rfl, rfl⟩

/-- C6: in the collection reached by `DELETE /api/menu/3` and a creation of the Taco,
`DELETE /api/menu/6` answers 200 and removes `Fish and Chips`, and the
`GET /api/menu/6` that follows answers 200 with the Taco record. -/
theorem get_after_delete_still_found :
    Reachable afterReuse ∧
      (∃ m, (deleteMenuById afterReuse "6").1 =
          ⟨200, .deleted "Menu item deleted successfully" (some m)⟩ ∧
        m.name = .str "Fish and Chips") ∧
      (getMenuById (deleteMenuById afterReuse "6").2 "6").1 = ⟨200, .item (recordOf 6 taco)⟩ :=
  ⟨Reachable.create afterDelete taco (Reachable.delete menuItems "3" Reachable.seeded),
    ⟨_, rfl, rfl⟩, rfl⟩

/-! ## What the validators let through -/

/-- C8: a body whose name has two characters breaks the rule for `name`, yet it passes
the validation middleware: `POST /api/menu` answers 201 and stores it. -/
theorem short_name_accepted :
    specName shortName = false ∧ Valid shortName ∧
      postMenu menuItems shortName =
        (⟨201, .item (recordOf 7 shortName)⟩, menuItems ++ [recordOf 7 shortName]) ∧
      (recordOf 7 shortName).name = .str "ab" :=
  ⟨by decide, by decide, rfl, rfl⟩

/-- C9: a body that breaks two rules of the table, a two-character name and a category
outside the enumeration, is answered 400 with a single message. -/
theorem two_faults_one_message :
    specViolations twoFaults = 2 ∧
      postMenu menuItems twoFaults =
        (⟨400, .invalid "Validation failed"
          ["Category must be one of: appetizer, entree, dessert, beverage"]⟩, menuItems) :=
  ⟨by decide, rfl⟩

end RestaurantAPI
